import Mathlib

/-!
Verification development for the oakley-grocery resolution and ranking engine.

The definitions below are a shallow embedding of the Python sources
`oakley_grocery/resolver.py`, `oakley_grocery/db.py` (preferences table) and
`oakley_grocery/woolworths.py` (search client, at the level of its cache /
network / stale-cache decision structure).  Python floats are modelled as
rationals, SQL rows as structures, the preferences table as the row list that
`get_all_preferences` returns, and Python string operations as executable
functions on `List Char` / `String`.
-/

namespace OakleyGrocery

/-- Python `str.lower()` (ASCII case mapping, which is what the data uses):
lower-case every character. -/
def pyLower (s : String) : String := String.mk (s.data.map Char.toLower)

/-- Python `str.strip()`: remove leading and trailing whitespace characters. -/
def pyStrip (s : String) : String :=
  String.mk (((s.data.dropWhile Char.isWhitespace).reverse.dropWhile
      Char.isWhitespace).reverse)

/-- Expression `generic_name.lower().strip()` — the key normalization applied in
`resolver.resolve_item`, `db.get_preference` and `db.save_preference`. -/
def pyNormalize (s : String) : String := pyStrip (pyLower s)

/-- Helper for `pySplit`: walk the character list accumulating the current word
(in reverse), emitting a word at each whitespace boundary. -/
def splitWsAux : List Char → List Char → List String
  | [], acc => if acc.isEmpty then [] else [String.mk acc.reverse]
  | c :: cs, acc =>
    if c.isWhitespace then
      if acc.isEmpty then splitWsAux cs [] else String.mk acc.reverse :: splitWsAux cs []
    else splitWsAux cs (c :: acc)

/-- Python `str.split()` with no argument: split on runs of whitespace and drop
empty pieces. -/
def pySplit (s : String) : List String := splitWsAux s.data []

/-- Function `_tokenize` of `resolver.py`:
`set(text.lower().split()) if text else set()`. -/
def tokenize (text : String) : Finset String :=
  if text.isEmpty then ∅ else (pySplit (pyLower text)).toFinset

/-- Function `_jaccard` of `resolver.py`: Jaccard similarity of two token sets;
0 when either set is empty (and the guarded division mirrors
`intersection / union if union else 0.0`). -/
def jaccard (a b : Finset String) : ℚ :=
  if a = ∅ ∨ b = ∅ then 0
  else if (a ∪ b).card = 0 then 0
  else ((a ∩ b).card : ℚ) / ((a ∪ b).card : ℚ)

/-- Helper for `pySubstr`: does the second list start with the first one? -/
def listStartsWith : List Char → List Char → Bool
  | [], _ => true
  | _ :: _, [] => false
  | a :: as, b :: bs => a == b && listStartsWith as bs

/-- Helper for `pySubstr`: does the first list occur contiguously in the second? -/
def listSubstr (a : List Char) : List Char → Bool
  | [] => a.isEmpty
  | c :: bs => listStartsWith a (c :: bs) || listSubstr a bs

/-- Python `a in b` on strings: `a` occurs as a contiguous substring of `b`
(true whenever `a` is empty). -/
def pySubstr (a b : String) : Bool := listSubstr a.data b.data

/-- Python truthiness of an optional string (`if prefer_brand:` — `None` and
the empty string are falsy). -/
def strTruthy : Option String → Bool
  | none => false
  | some s => !s.isEmpty

/-! The preferences table of `db.py`. -/

/-- A row of the `preferences` table (timestamp columns omitted — no claim
concerns them). `REAL` prices are modelled as rationals. -/
structure Preference where
  id : Nat
  generic_name : String
  stockcode : Int
  product_name : String
  brand : Option String
  package_size : Option String
  purchase_count : Nat
  last_price : Option ℚ
deriving DecidableEq

/-- State of the preferences table. `prefs` is the row sequence exactly as
`get_all_preferences` returns it (`ORDER BY purchase_count DESC`, with tie order
as produced by the database); `next_id` models `AUTOINCREMENT`. -/
structure DB where
  prefs : List Preference
  next_id : Nat
deriving DecidableEq

/-- Function `db.get_preference`: select the row whose `generic_name` equals
the lower-cased, stripped argument. -/
def get_preference (db : DB) (generic_name : String) : Option Preference :=
  db.prefs.find? (fun p => p.generic_name == pyNormalize generic_name)

/-- Function `db.get_all_preferences`: all rows ordered by `purchase_count`
descending — the order `DB.prefs` carries by construction. -/
def get_all_preferences (db : DB) : List Preference := db.prefs

/-- Row update of the UPDATE branch of `db.save_preference`: overwrite
`stockcode`, `product_name`, `brand`, `package_size`, increment
`purchase_count` by one, and set `last_price = COALESCE(?, last_price)`
(`Option.or`) — applied to the rows matching the normalised key. -/
def update_row (stockcode : Int) (product_name : String) (brand : Option String)
    (package_size : Option String) (price : Option ℚ) (key : String)
    (p : Preference) : Preference :=
  if p.generic_name == key then
    { p with stockcode := stockcode, product_name := product_name,
             brand := brand, package_size := package_size,
             purchase_count := p.purchase_count + 1,
             last_price := price.or p.last_price }
  else p

/-- Function `db.save_preference`: upsert keyed on the normalised name.  On
update: apply `update_row` to the matching row (the SQL `UPDATE ... WHERE
generic_name = ?`).  On insert: a fresh row with `purchase_count` defaulting
to 1.  Returns the new table state and the row id. -/
def save_preference (db : DB) (generic_name : String) (stockcode : Int)
    (product_name : String) (brand : Option String) (package_size : Option String)
    (price : Option ℚ) : DB × Nat :=
  let generic := pyNormalize generic_name
  match get_preference db generic with
  | some existing =>
      let f := update_row stockcode product_name brand package_size price generic
      ({ db with prefs := db.prefs.map f }, existing.id)
  | none =>
      let row : Preference :=
        { id := db.next_id, generic_name := generic, stockcode := stockcode,
          product_name := product_name, brand := brand,
          package_size := package_size, purchase_count := 1, last_price := price }
      ({ prefs := db.prefs ++ [row], next_id := db.next_id + 1 }, db.next_id)

/-! Products and the relevance scorer of `resolver.py`. -/

/-- A normalised product as produced by `woolworths._parse_product` and read by
the resolver.  Fields the source reads through `.get(...)` with a possible
`None` are `Option`-valued. -/
structure Product where
  stockcode : Option Int
  name : String
  brand : Option String
  package_size : Option String
  price : Option ℚ
  available : Bool
  on_special : Bool
deriving DecidableEq

/-- Name-overlap term of `_calculate_relevance` (weight 0.4). -/
def name_term (generic_name : String) (product : Product) : ℚ :=
  jaccard (tokenize generic_name) (tokenize product.name) * (2/5)

/-- Brand-match term of `_calculate_relevance` (weight 0.2): full credit on a
case-insensitive bidirectional substring hit, else Jaccard partial credit when
the candidate brand is non-empty. -/
def brand_term (prefer_brand : Option String) (product : Product) : ℚ :=
  if strTruthy prefer_brand then
    let pb := prefer_brand.getD ""
    let product_brand := pyLower (product.brand.getD "")
    if pySubstr (pyLower pb) product_brand || pySubstr product_brand (pyLower pb) then
      1/5
    else if !product_brand.isEmpty then
      jaccard (tokenize pb) (tokenize product_brand) * (1/5)
    else 0
  else 0

/-- Size-match term of `_calculate_relevance` (weight 0.15): full credit on a
case-insensitive bidirectional substring hit, no partial credit. -/
def size_term (prefer_size : Option String) (product : Product) : ℚ :=
  if strTruthy prefer_size then
    let ps := prefer_size.getD ""
    let product_size := pyLower (product.package_size.getD "")
    if pySubstr (pyLower ps) product_size || pySubstr product_size (pyLower ps) then
      3/20
    else 0
  else 0

/-- Purchase-history term of `_calculate_relevance` (weight 0.15): looks up the
preference stored under `generic_name` and credits
`min(purchase_count / 10, 1.0) * 0.15` when its stockcode equals the
candidate's. -/
def history_term (db : DB) (generic_name : String) (product : Product) : ℚ :=
  match get_preference db generic_name with
  | some pref =>
      if some pref.stockcode = product.stockcode then
        min ((pref.purchase_count : ℚ) / 10) 1 * (3/20)
      else 0
  | none => 0

/-- Special-offer term of `_calculate_relevance` (weight 0.05). -/
def special_term (product : Product) : ℚ :=
  if product.on_special then 1/20 else 0

/-- Function `_calculate_relevance` of `resolver.py`: sum of the five signal
terms, halved when the candidate is unavailable, clamped to 1. -/
def calculate_relevance (db : DB) (product : Product) (generic_name : String)
    (prefer_brand prefer_size : Option String) : ℚ :=
  let score := name_term generic_name product + brand_term prefer_brand product
    + size_term prefer_size product + history_term db generic_name product
    + special_term product
  let score2 := if product.available then score else score * (1/2)
  min score2 1

/-- Comparison point used to state that the history signal contributes nothing:
`_calculate_relevance` with the purchase-history term replaced by zero. -/
def calculate_relevance_no_history (product : Product) (generic_name : String)
    (prefer_brand prefer_size : Option String) : ℚ :=
  let score := name_term generic_name product + brand_term prefer_brand product
    + size_term prefer_size product + 0 + special_term product
  let score2 := if product.available then score else score * (1/2)
  min score2 1

/-! The search client of `woolworths.py`, at the level of its cache / network /
stale-cache decision structure. -/

/-- Modelled from the spec: outcome environment of one `search_products` call.
The `FileCache` module (`common/cache.py`) is not in the source tree; per the
spec's Result Cache contract its reads are modelled as oracles for this call's
cache key: `fresh_cache` is what `_cache.get(key, ttl)` returns, `stale_cache`
what the TTL-ignoring fallback read `_cache.get(key)` returns, and `network`
the outcome of the provider request (parsed product list, or transport error). -/
structure SearchEnv where
  fresh_cache : Option (List Product)
  network : Except Unit (List Product)
  stale_cache : Option (List Product)

/-- Python truthiness of an optional list (`if cached:` — `None` and the empty
list are both falsy). -/
def listTruthy : Option (List Product) → Bool
  | none => false
  | some l => !l.isEmpty

/-- Function `woolworths.search_products`: a truthy fresh cache entry
short-circuits; on a network failure fall back to a truthy stale cache entry,
otherwise raise `RuntimeError` (modelled as `Except.error`). -/
def search_products (env : SearchEnv) : Except Unit (List Product) :=
  if listTruthy env.fresh_cache then .ok (env.fresh_cache.getD [])
  else
    match env.network with
    | .ok products => .ok products
    | .error _ =>
        if listTruthy env.stale_cache then .ok (env.stale_cache.getD [])
        else .error ()

/-! The resolution orchestrator `resolver.resolve_item`. -/

/-- Values of the `source` field of a resolution result. -/
inductive Source
  | preference
  | search
  | unresolved
deriving DecidableEq

/-- The `product` entry of a resolution result: the preference path builds a
five-field dict from the stored row, the search path returns the top scored
candidate itself (the candidate dict together with its `_score`). -/
inductive ResProduct
  | fromPref (stockcode : Int) (name : String) (brand : Option String)
      (package_size : Option String) (price : Option ℚ)
  | fromSearch (product : Product) (score : ℚ)
deriving DecidableEq

/-- The dict returned by `resolve_item`.  `candidates` carries the scored
candidates (`_score` attached). -/
structure ResolveResult where
  resolved : Bool
  product : Option ResProduct
  candidates : List (Product × ℚ)
  source : Source
  generic_name : String
  quantity : Int
deriving DecidableEq

/-- The resolved-from-preference dict built at steps 1 and 2 of `resolve_item`. -/
def pref_result (p : Preference) (generic : String) (quantity : Int) : ResolveResult :=
  { resolved := true,
    product := some (.fromPref p.stockcode p.product_name p.brand p.package_size
      p.last_price),
    candidates := [], source := .preference, generic_name := generic,
    quantity := quantity }

/-- The unresolved-with-no-candidates dict returned on search failure or an
empty search result. -/
def unresolved_empty (generic : String) (quantity : Int) : ResolveResult :=
  { resolved := false, product := none, candidates := [], source := .unresolved,
    generic_name := generic, quantity := quantity }

/-- Fuzzy preference scan of `resolve_item` step 2: the first stored preference
(in `get_all_preferences` order) whose generic-name token set has Jaccard
overlap of at least 0.6 with the query token set. -/
def fuzzy_match (db : DB) (generic : String) : Option Preference :=
  (get_all_preferences db).find? (fun p =>
    decide ((3 : ℚ)/5 ≤ jaccard (tokenize generic) (tokenize p.generic_name)))

/-- Scoring stage of `resolve_item`: score every candidate and sort descending
by score.  Python `list.sort` is stable, so the model uses the stable
`List.mergeSort` under the matching total preorder. -/
def score_candidates (db : DB) (generic : String)
    (prefer_brand prefer_size : Option String) (products : List Product) :
    List (Product × ℚ) :=
  (products.map (fun p => (p, calculate_relevance db p generic prefer_brand
    prefer_size))).mergeSort (fun a b => decide (b.2 ≤ a.2))

/-- The resolved-from-search dict of `resolve_item` step 5. -/
def search_result (top : Product × ℚ) (scored : List (Product × ℚ))
    (generic : String) (quantity : Int) : ResolveResult :=
  { resolved := true, product := some (.fromSearch top.1 top.2),
    candidates := scored.take 5, source := .search, generic_name := generic,
    quantity := quantity }

/-- The disambiguation dict of `resolve_item` step 5. -/
def disambiguation_result (scored : List (Product × ℚ)) (generic : String)
    (quantity : Int) : ResolveResult :=
  { resolved := false, product := none, candidates := scored.take 5,
    source := .unresolved, generic_name := generic, quantity := quantity }

/-- Gap of the auto-resolve decision in `resolve_item`:
`top["_score"] - second["_score"]`, or 1.0 when there is no second candidate. -/
def gap_of (top : Product × ℚ) (rest : List (Product × ℚ)) : ℚ :=
  match rest with
  | [] => 1
  | second :: _ => top.2 - second.2

/-- Function `resolver.resolve_item`.  The returned Bool records whether the
provider-search stage (step 3) was entered, which states the short-circuit
claims; Python's `try/except RuntimeError` around the search is the match on
`Except`, so the embedded function is total — resolution never propagates the
search failure.  The search query string built from brand/size hints is
implicit in `SearchEnv`, which is the oracle for this call's query key.  The
auto-resolve thresholds 2/5 and 1/10 are `AUTO_RESOLVE_MIN_SCORE = 0.4` and
`AUTO_RESOLVE_GAP = 0.1` of `common/config.py`. -/
def resolve_item (db : DB) (env : SearchEnv) (generic_name : String)
    (quantity : Int) (prefer_brand prefer_size : Option String) :
    ResolveResult × Bool :=
  let generic := pyNormalize generic_name
  match get_preference db generic with
  | some pref => (pref_result pref generic quantity, false)
  | none =>
    match fuzzy_match db generic with
    | some p => (pref_result p generic quantity, false)
    | none =>
      match search_products env with
      | .error _ => (unresolved_empty generic quantity, true)
      | .ok products =>
        if products.isEmpty then (unresolved_empty generic quantity, true)
        else
          let scored := score_candidates db generic prefer_brand prefer_size products
          match scored with
          -- unreachable: scoring preserves the length of the non-empty list
          | [] => (unresolved_empty generic quantity, true)
          | top :: rest =>
            let gap : ℚ := gap_of top rest
            if (2 : ℚ)/5 ≤ top.2 ∧ (1 : ℚ)/10 ≤ gap then
              (search_result top scored generic quantity, true)
            else
              (disambiguation_result scored generic quantity, true)

/-- Function `resolver.learn_preference`: delegate to `db.save_preference`. -/
def learn_preference (db : DB) (generic_name : String) (stockcode : Int)
    (product_name : String) (brand : Option String) (package_size : Option String)
    (price : Option ℚ) : DB × Nat :=
  save_preference db generic_name stockcode product_name brand package_size price

/-! Basic lemmas about the string primitives. -/

theorem charToLower_toNat (c : Char) (h : 65 ≤ c.toNat ∧ c.toNat ≤ 90) :
    c.toLower.toNat = c.toNat + 32 := by
  have hv : (c.toNat + 32).isValidChar := Or.inl (by omega)
  simp only [Char.toLower, ge_iff_le, if_pos (And.intro h.1 h.2)]
  rw [Char.ofNat, dif_pos hv]
  rfl

theorem charToLower_eq_self (c : Char) (h : ¬ (65 ≤ c.toNat ∧ c.toNat ≤ 90)) :
    c.toLower = c := by
  simp only [Char.toLower, ge_iff_le]
  rw [if_neg h]

theorem charToLower_idem (c : Char) : c.toLower.toLower = c.toLower := by
  by_cases h : 65 ≤ c.toNat ∧ c.toNat ≤ 90
  · have h1 := charToLower_toNat c h
    exact charToLower_eq_self _ (by omega)
  · rw [charToLower_eq_self c h, charToLower_eq_self c h]

theorem char_eq_iff_toNat {a b : Char} : a = b ↔ a.toNat = b.toNat := by
  constructor
  · intro h; rw [h]
  · intro h
    exact Char.ext (UInt32.ext h)

theorem isWhitespace_toNat (c : Char) :
    c.isWhitespace = true ↔ (c.toNat = 32 ∨ c.toNat = 9 ∨ c.toNat = 13 ∨ c.toNat = 10) := by
  have e1 : (c = ' ') ↔ c.toNat = 32 := by rw [char_eq_iff_toNat]; exact Iff.rfl
  have e2 : (c = '\t') ↔ c.toNat = 9 := by rw [char_eq_iff_toNat]; exact Iff.rfl
  have e3 : (c = '\r') ↔ c.toNat = 13 := by rw [char_eq_iff_toNat]; exact Iff.rfl
  have e4 : (c = '\n') ↔ c.toNat = 10 := by rw [char_eq_iff_toNat]; exact Iff.rfl
  unfold Char.isWhitespace
  simp only [Bool.or_eq_true, decide_eq_true_eq, e1, e2, e3, e4]
  tauto

theorem isWhitespace_toLower (c : Char) : c.toLower.isWhitespace = c.isWhitespace := by
  by_cases h : 65 ≤ c.toNat ∧ c.toNat ≤ 90
  · have h1 := charToLower_toNat c h
    have h2 : c.toLower.isWhitespace = false := by
      rw [← Bool.not_eq_true]
      rw [isWhitespace_toNat]
      omega
    have h3 : c.isWhitespace = false := by
      rw [← Bool.not_eq_true]
      rw [isWhitespace_toNat]
      omega
    rw [h2, h3]
  · rw [charToLower_eq_self c h]

theorem pyLower_idem (s : String) : pyLower (pyLower s) = pyLower s := by
  simp only [pyLower, List.map_map]
  congr 1
  apply List.map_congr_left
  intro c _
  exact charToLower_idem c

theorem pyStrip_pyLower_comm (s : String) :
    pyStrip (pyLower s) = pyLower (pyStrip s) := by
  have hf : (Char.isWhitespace ∘ Char.toLower) = Char.isWhitespace :=
    funext fun c => isWhitespace_toLower c
  simp only [pyStrip, pyLower, List.dropWhile_map, hf, ← List.map_reverse]

theorem dropWhile_eq_self_of_prefix {w : Char → Bool} {p m : List Char}
    (hp : p <+: m) (hm : List.dropWhile w m = m) : List.dropWhile w p = p := by
  cases p with
  | nil => simp
  | cons a p' =>
    obtain ⟨t, ht⟩ := hp
    rw [← ht] at hm
    by_cases hw : w a
    · exfalso
      rw [List.cons_append, List.dropWhile_cons, if_pos hw] at hm
      have hlen : (List.dropWhile w (p' ++ t)).length ≤ (p' ++ t).length :=
        (List.dropWhile_suffix w).length_le
      rw [hm] at hlen
      simp at hlen
    · rw [List.dropWhile_cons, if_neg hw]

theorem pyStrip_idem (s : String) : pyStrip (pyStrip s) = pyStrip s := by
  simp only [pyStrip]
  congr 1
  set w := Char.isWhitespace with hw
  set l := s.data with hl
  set m := l.dropWhile w with hm
  have hmm : List.dropWhile w m = m := List.dropWhile_idempotent w l
  set p := (m.reverse.dropWhile w).reverse with hp
  have hpm : p <+: m := by
    have h1 : m.reverse.dropWhile w <:+ m.reverse := List.dropWhile_suffix w
    have h2 := h1.reverse
    rw [List.reverse_reverse] at h2
    exact h2
  have h3 : List.dropWhile w p = p := dropWhile_eq_self_of_prefix hpm hmm
  show ((List.dropWhile w p).reverse.dropWhile w).reverse = p
  rw [h3, hp, List.reverse_reverse, List.dropWhile_idempotent]

theorem pyNormalize_idem (s : String) : pyNormalize (pyNormalize s) = pyNormalize s := by
  simp only [pyNormalize]
  rw [← pyStrip_pyLower_comm, pyLower_idem, pyStrip_idem]

/-! Helper lemmas: jaccard bounds and evaluation, signal-term bounds. -/

theorem jaccard_nonneg (a b : Finset String) : 0 ≤ jaccard a b := by
  unfold jaccard
  split
  · exact le_refl 0
  · split
    · exact le_refl 0
    · positivity

theorem jaccard_le_one (a b : Finset String) : jaccard a b ≤ 1 := by
  unfold jaccard
  split
  · norm_num
  · split
    · norm_num
    · apply div_le_one_of_le₀
      · exact_mod_cast Finset.card_le_card (Finset.inter_subset_union)
      · positivity

theorem jaccard_eval {a b : Finset String} {i u : ℕ} (h : ¬(a = ∅ ∨ b = ∅))
    (hi : (a ∩ b).card = i) (hu : (a ∪ b).card = u) (hu0 : u ≠ 0) :
    jaccard a b = (i : ℚ) / (u : ℚ) := by
  unfold jaccard
  rw [if_neg h, hi, hu, if_neg hu0]

theorem name_term_nonneg (g : String) (p : Product) : 0 ≤ name_term g p := by
  unfold name_term
  have := jaccard_nonneg (tokenize g) (tokenize p.name)
  linarith

theorem name_term_le (g : String) (p : Product) : name_term g p ≤ 2/5 := by
  unfold name_term
  have := jaccard_le_one (tokenize g) (tokenize p.name)
  linarith

theorem brand_term_nonneg (pb : Option String) (p : Product) : 0 ≤ brand_term pb p := by
  unfold brand_term
  dsimp only
  split
  · split
    · norm_num
    · split
      · have := jaccard_nonneg (tokenize (pb.getD ""))
          (tokenize (pyLower (p.brand.getD "")))
        linarith
      · exact le_refl 0
  · exact le_refl 0

theorem brand_term_le (pb : Option String) (p : Product) : brand_term pb p ≤ 1/5 := by
  unfold brand_term
  dsimp only
  split
  · split
    · norm_num
    · split
      · have := jaccard_le_one (tokenize (pb.getD ""))
          (tokenize (pyLower (p.brand.getD "")))
        linarith
      · norm_num
  · norm_num

theorem size_term_nonneg (ps : Option String) (p : Product) : 0 ≤ size_term ps p := by
  unfold size_term
  dsimp only
  split
  · split <;> norm_num
  · exact le_refl 0

theorem size_term_le (ps : Option String) (p : Product) : size_term ps p ≤ 3/20 := by
  unfold size_term
  dsimp only
  split
  · split <;> norm_num
  · norm_num

theorem freq_bonus_nonneg (c : ℕ) : 0 ≤ min ((c : ℚ) / 10) 1 * (3/20) := by
  have h1 : (0:ℚ) ≤ min ((c : ℚ) / 10) 1 := by
    apply le_min
    · positivity
    · norm_num
  nlinarith

theorem freq_bonus_le (c : ℕ) : min ((c : ℚ) / 10) 1 * (3/20) ≤ 3/20 := by
  have h1 : min ((c : ℚ) / 10) 1 ≤ 1 := min_le_right _ _
  nlinarith

theorem history_term_nonneg (db : DB) (g : String) (p : Product) :
    0 ≤ history_term db g p := by
  unfold history_term
  split
  · split
    · exact freq_bonus_nonneg _
    · exact le_refl 0
  · exact le_refl 0

theorem history_term_le (db : DB) (g : String) (p : Product) :
    history_term db g p ≤ 3/20 := by
  unfold history_term
  split
  · split
    · exact freq_bonus_le _
    · norm_num
  · norm_num

theorem special_term_nonneg (p : Product) : 0 ≤ special_term p := by
  unfold special_term
  split <;> norm_num

theorem special_term_le (p : Product) : special_term p ≤ 1/20 := by
  unfold special_term
  split <;> norm_num

theorem jaccard_comm (a b : Finset String) : jaccard a b = jaccard b a := by
  simp only [jaccard, Finset.inter_comm, Finset.union_comm, or_comm]

theorem jaccard_self (a : Finset String) (ha : a ≠ ∅) : jaccard a a = 1 := by
  have h1 : ¬(a = ∅ ∨ a = ∅) := by simp [ha]
  have h2 : a.card ≠ 0 := by
    rw [ne_eq, Finset.card_eq_zero]
    exact ha
  unfold jaccard
  rw [if_neg h1, Finset.inter_self, Finset.union_self, if_neg h2]
  rw [div_self (by exact_mod_cast h2)]

theorem jaccard_eq_zero (a b : Finset String)
    (h : a ∩ b = ∅ ∨ a = ∅ ∨ b = ∅) : jaccard a b = 0 := by
  rcases h with h | h | h
  · unfold jaccard
    split
    · rfl
    · split
      · rfl
      · rw [h]
        simp
  · unfold jaccard
    rw [if_pos (Or.inl h)]
  · unfold jaccard
    rw [if_pos (Or.inr h)]

/-! Claim theorems. -/

/-- C9: the Jaccard token-set similarity is symmetric, returns 1 for identical
non-empty sets, returns 0 when the sets are disjoint (empty intersection) or
either set is empty, and returns exactly 1/2 on the sets {a,b,c} and {a,b,d}. -/
theorem claim_C9 :
    (∀ a b : Finset String, jaccard a b = jaccard b a) ∧
    (∀ a : Finset String, a ≠ ∅ → jaccard a a = 1) ∧
    (∀ a b : Finset String, (a ∩ b = ∅ ∨ a = ∅ ∨ b = ∅) → jaccard a b = 0) ∧
    jaccard {"a", "b", "c"} {"a", "b", "d"} = 1/2 := by
  refine ⟨jaccard_comm, jaccard_self, jaccard_eq_zero, ?_⟩
  rw [jaccard_eval (i := 2) (u := 4) (by decide) (by decide) (by decide) (by decide)]
  norm_num

/-- Witness for C9: the hypothesised conjuncts applied at concrete sets —
identical singletons score 1, disjoint singletons score 0. -/
theorem claim_C9_witness :
    jaccard {"x"} {"x"} = 1 ∧ jaccard {"x"} {"y"} = 0 :=
  ⟨claim_C9.2.1 {"x"} (by decide),
   claim_C9.2.2.1 {"x"} {"y"} (Or.inl (by decide))⟩

/-- C8: an unavailable candidate scores exactly half of an otherwise-identical
available candidate, for every query, hints and preference state; the clamp at
1 never interferes because the additive terms sum to at most 19/20. -/
theorem claim_C8 (db : DB) (p : Product) (g : String) (pb ps : Option String) :
    calculate_relevance db { p with available := false } g pb ps
      = 1/2 * calculate_relevance db { p with available := true } g pb ps := by
  obtain ⟨sc, nm, br, pz, pr, av, sp⟩ := p
  show min ((name_term g ⟨sc, nm, br, pz, pr, true, sp⟩
      + brand_term pb ⟨sc, nm, br, pz, pr, true, sp⟩
      + size_term ps ⟨sc, nm, br, pz, pr, true, sp⟩
      + history_term db g ⟨sc, nm, br, pz, pr, true, sp⟩
      + special_term ⟨sc, nm, br, pz, pr, true, sp⟩) * (1/2)) 1
    = 1/2 * min (name_term g ⟨sc, nm, br, pz, pr, true, sp⟩
      + brand_term pb ⟨sc, nm, br, pz, pr, true, sp⟩
      + size_term ps ⟨sc, nm, br, pz, pr, true, sp⟩
      + history_term db g ⟨sc, nm, br, pz, pr, true, sp⟩
      + special_term ⟨sc, nm, br, pz, pr, true, sp⟩) 1
  have b1 := name_term_le g ⟨sc, nm, br, pz, pr, true, sp⟩
  have b2 := brand_term_le pb ⟨sc, nm, br, pz, pr, true, sp⟩
  have b3 := size_term_le ps ⟨sc, nm, br, pz, pr, true, sp⟩
  have b4 := history_term_le db g ⟨sc, nm, br, pz, pr, true, sp⟩
  have b5 := special_term_le ⟨sc, nm, br, pz, pr, true, sp⟩
  rw [min_eq_left (by linarith), min_eq_left (by linarith)]
  ring

theorem listSubstr_nil (l : List Char) : listSubstr [] l = true := by
  cases l <;> simp [listSubstr, listStartsWith]

theorem pyLower_empty : pyLower "" = "" := rfl

theorem pySubstr_nil (s : String) : pySubstr "" s = true := listSubstr_nil s.data

/-- C10: with a preferred brand supplied and an empty or missing candidate
brand, the brand signal grants the full 0.2 credit (the empty candidate brand
passes the bidirectional substring test); likewise a preferred size against an
empty or missing package size grants the full 0.15 credit. -/
theorem claim_C10 (pb ps : Option String) (p : Product) :
    (strTruthy pb = true → p.brand.getD "" = "" → brand_term pb p = 1/5) ∧
    (strTruthy ps = true → p.package_size.getD "" = "" → size_term ps p = 3/20) := by
  constructor
  · intro hb hbrand
    have hcond : (pySubstr (pyLower (pb.getD "")) (pyLower "")
        || pySubstr (pyLower "") (pyLower (pb.getD ""))) = true := by
      rw [pyLower_empty, pySubstr_nil, Bool.or_true]
    simp only [brand_term, hb, hbrand, if_true, hcond]
  · intro hs hsize
    have hcond : (pySubstr (pyLower (ps.getD "")) (pyLower "")
        || pySubstr (pyLower "") (pyLower (ps.getD ""))) = true := by
      rw [pyLower_empty, pySubstr_nil, Bool.or_true]
    simp only [size_term, hs, hsize, if_true, hcond]

/-- Witness for C10: a concrete preferred brand "oak" and size "2l" against a
candidate with a missing brand and an empty package size. -/
theorem claim_C10_witness :
    brand_term (some "oak")
      { stockcode := some 1, name := "x", brand := none, package_size := some "",
        price := none, available := true, on_special := false } = 1/5 ∧
    size_term (some "2l")
      { stockcode := some 1, name := "x", brand := none, package_size := some "",
        price := none, available := true, on_special := false } = 3/20 :=
  ⟨(claim_C10 (some "oak") (some "2l") _).1 (by decide) (by decide),
   (claim_C10 (some "oak") (some "2l") _).2 (by decide) (by decide)⟩


/-- C5: when resolution reaches the candidate-scoring stage (no exact
preference stored under the normalised generic name, no fuzzy preference
match), the purchase-history signal contributes exactly 0 to every candidate's
score: the scorer looks up the very key the exact-match stage found absent, so
each candidate scores as if the history term were hard-wired to zero. -/
theorem claim_C5 (db : DB) (g : String) (pb ps : Option String)
    (hexact : get_preference db (pyNormalize g) = none)
    (_hfuzzy : fuzzy_match db (pyNormalize g) = none) :
    ∀ p : Product, history_term db (pyNormalize g) p = 0 ∧
      calculate_relevance db p (pyNormalize g) pb ps
        = calculate_relevance_no_history p (pyNormalize g) pb ps := by
  intro p
  have h0 : history_term db (pyNormalize g) p = 0 := by
    unfold history_term
    rw [hexact]
  refine ⟨h0, ?_⟩
  unfold calculate_relevance calculate_relevance_no_history
  rw [h0]

/-- Witness for C5: an empty preference store and a concrete candidate. -/
theorem claim_C5_witness :
    history_term ⟨[], 0⟩ (pyNormalize "milk")
      { stockcode := some 100, name := "full cream milk", brand := some "pauls",
        package_size := some "2l", price := some 4, available := true,
        on_special := false } = 0 ∧
    calculate_relevance ⟨[], 0⟩
      { stockcode := some 100, name := "full cream milk", brand := some "pauls",
        package_size := some "2l", price := some 4, available := true,
        on_special := false } (pyNormalize "milk") none none
      = calculate_relevance_no_history
        { stockcode := some 100, name := "full cream milk", brand := some "pauls",
          package_size := some "2l", price := some 4, available := true,
          on_special := false } (pyNormalize "milk") none none :=
  claim_C5 ⟨[], 0⟩ "milk" none none rfl rfl _

/-- C2: an exact preference hit short-circuits resolution — the result is
resolved from the stored row with source `preference`, and the provider-search
stage is never entered (the flag recording entry into step 3 is false). -/
theorem claim_C2 (db : DB) (env : SearchEnv) (g : String) (q : Int)
    (pb ps : Option String) (pref : Preference)
    (hpref : get_preference db (pyNormalize g) = some pref) :
    resolve_item db env g q pb ps = (pref_result pref (pyNormalize g) q, false) := by
  simp only [resolve_item, hpref]

/-- Witness for C2: a store holding a preference for "milk", resolved with an
environment whose network would fail — the stored row wins and no search runs. -/
theorem claim_C2_witness :
    resolve_item ⟨[⟨0, "milk", 123, "Pauls Milk 2L", some "Pauls", some "2L", 3,
        some 4⟩], 1⟩ ⟨none, Except.error (), none⟩ "Milk" 1 none none
      = (pref_result ⟨0, "milk", 123, "Pauls Milk 2L", some "Pauls", some "2L", 3,
          some 4⟩ (pyNormalize "Milk") 1, false) :=
  claim_C2 _ _ "Milk" 1 none none _ (by decide)



theorem find?_key_map_update (l : List Preference) (key : String)
    (f : Preference → Preference) (hf : ∀ p, (f p).generic_name = p.generic_name) :
    (l.map f).find? (fun p => p.generic_name == key)
      = (l.find? (fun p => p.generic_name == key)).map f := by
  have hq : ((fun p : Preference => p.generic_name == key) ∘ f)
      = (fun p : Preference => p.generic_name == key) := by
    funext p
    simp [hf]
  rw [List.find?_map, hq]

theorem update_row_generic_name (sc : Int) (pn : String) (b psz : Option String)
    (pr : Option ℚ) (key : String) (p : Preference) :
    (update_row sc pn b psz pr key p).generic_name = p.generic_name := by
  unfold update_row
  split <;> rfl

/-- C6: saving over an existing preference key increments its purchase counter
by exactly 1, overwrites stockcode, product name, brand and package size with
the given values, sets the last price to the given price when one is provided
and retains the stored price when it is omitted (COALESCE); the existing row
id is returned. -/
theorem claim_C6 (db : DB) (g : String) (sc : Int) (pn : String)
    (b psz : Option String) (pr : Option ℚ) (old : Preference)
    (h : get_preference db g = some old) :
    get_preference (save_preference db g sc pn b psz pr).1 g
      = some { old with stockcode := sc, product_name := pn, brand := b,
                        package_size := psz,
                        purchase_count := old.purchase_count + 1,
                        last_price := pr.or old.last_price }
    ∧ (save_preference db g sc pn b psz pr).2 = old.id := by
  have hnorm : get_preference db (pyNormalize g) = some old := by
    unfold get_preference
    rw [pyNormalize_idem]
    exact h
  have hfind : db.prefs.find? (fun p => p.generic_name == pyNormalize g)
      = some old := h
  have hold : (old.generic_name == pyNormalize g) = true := by
    have h3 := List.find?_some hfind
    exact h3
  constructor
  · simp only [save_preference, hnorm]
    unfold get_preference
    dsimp only
    rw [find?_key_map_update _ _ _ (update_row_generic_name sc pn b psz pr
      (pyNormalize g)), hfind]
    simp [update_row, hold]
  · simp only [save_preference, hnorm]

/-- Witness for C6: a second save over the key "milk" with a new product and no
price — the counter advances from 3 to 4, display fields are overwritten, and
the earlier price 4 is retained. -/
theorem claim_C6_witness :
    get_preference (save_preference ⟨[⟨0, "milk", 123, "Pauls Milk 2L",
        some "Pauls", some "2L", 3, some 4⟩], 1⟩ "milk" 456 "Dairy Farmers Milk"
        (some "Dairy Farmers") (some "1L") none).1 "milk"
      = some ⟨0, "milk", 456, "Dairy Farmers Milk", some "Dairy Farmers",
          some "1L", 4, some 4⟩
    ∧ (save_preference ⟨[⟨0, "milk", 123, "Pauls Milk 2L", some "Pauls",
        some "2L", 3, some 4⟩], 1⟩ "milk" 456 "Dairy Farmers Milk"
        (some "Dairy Farmers") (some "1L") none).2 = 0 :=
  claim_C6 ⟨[⟨0, "milk", 123, "Pauls Milk 2L", some "Pauls", some "2L", 3,
    some 4⟩], 1⟩ "milk" 456 "Dairy Farmers Milk" (some "Dairy Farmers")
    (some "1L") none ⟨0, "milk", 123, "Pauls Milk 2L", some "Pauls", some "2L",
    3, some 4⟩ (by decide)

/-- C7: preference keys are case- and whitespace-insensitive — after saving
under any variant of a generic name, looking up any variant with the same
normalised form returns the same record (and some record is found), because
both save and get normalise the key. -/
theorem claim_C7 (db : DB) (s1 s2 : String) (sc : Int) (pn : String)
    (b psz : Option String) (pr : Option ℚ)
    (h12 : pyNormalize s1 = pyNormalize s2) :
    get_preference (save_preference db s1 sc pn b psz pr).1 s2
      = get_preference (save_preference db s1 sc pn b psz pr).1 s1
    ∧ (get_preference (save_preference db s1 sc pn b psz pr).1 s1).isSome
        = true := by
  constructor
  · unfold get_preference
    rw [← h12]
  · cases hsave : get_preference db (pyNormalize s1) with
    | some old =>
      have hfind : db.prefs.find? (fun p => p.generic_name == pyNormalize s1)
          = some old := by
        have h2 := hsave
        unfold get_preference at h2
        rw [pyNormalize_idem] at h2
        exact h2
      simp only [save_preference, hsave]
      unfold get_preference
      dsimp only
      rw [find?_key_map_update _ _ _ (update_row_generic_name sc pn b psz pr
        (pyNormalize s1)), hfind]
      rfl
    | none =>
      have hfind : db.prefs.find? (fun p => p.generic_name == pyNormalize s1)
          = none := by
        have h2 := hsave
        unfold get_preference at h2
        rw [pyNormalize_idem] at h2
        exact h2
      simp only [save_preference, hsave]
      unfold get_preference
      dsimp only
      rw [List.find?_append, hfind]
      simp [List.find?_cons]

/-- Witness for C7: saving "Milk" then querying "  MILK  " hits the same
record. -/
theorem claim_C7_witness :
    get_preference (save_preference ⟨[], 0⟩ "Milk" 123 "Pauls Milk 2L" none none
        none).1 "  MILK  "
      = get_preference (save_preference ⟨[], 0⟩ "Milk" 123 "Pauls Milk 2L" none
          none none).1 "Milk"
    ∧ (get_preference (save_preference ⟨[], 0⟩ "Milk" 123 "Pauls Milk 2L" none
        none none).1 "Milk").isSome = true :=
  claim_C7 ⟨[], 0⟩ "Milk" "  MILK  " 123 "Pauls Milk 2L" none none none
    (by decide)


theorem find?_eq_some_split {α : Type} {p : α → Bool} {l : List α} {a : α}
    (h : l.find? p = some a) :
    ∃ l1 l2, l = l1 ++ a :: l2 ∧ (∀ b ∈ l1, p b = false) ∧ p a = true := by
  induction l with
  | nil => simp at h
  | cons x xs ih =>
    by_cases hx : p x = true
    · simp only [List.find?_cons, hx] at h
      have hxa : x = a := by
        simpa using h
      subst hxa
      exact ⟨[], xs, rfl, by simp, hx⟩
    · rw [Bool.not_eq_true] at hx
      simp only [List.find?_cons, hx] at h
      obtain ⟨l1, l2, rfl, hl1, hpa⟩ := ih h
      refine ⟨x :: l1, l2, rfl, ?_, hpa⟩
      intro b hb
      rcases List.mem_cons.mp hb with rfl | hb
      · exact hx
      · exact hl1 b hb

/-- C3: with no exact preference hit, the fuzzy scan walks the stored
preferences (the `get_all_preferences` sequence, descending by usage
frequency) and resolution returns Resolved-from-preference for the first
preference whose generic-name token set has Jaccard overlap of at least 0.6
with the query token set, never reaching the search stage; when no stored
preference reaches 0.6, every stored preference is below the threshold and
resolution falls through to the provider-search stage. -/
theorem claim_C3 (db : DB) (env : SearchEnv) (g : String) (q : Int)
    (pb ps : Option String)
    (_hsorted : db.prefs.Sorted (fun a b => b.purchase_count ≤ a.purchase_count))
    (hexact : get_preference db (pyNormalize g) = none) :
    (∀ p, fuzzy_match db (pyNormalize g) = some p →
      (∃ l1 l2, get_all_preferences db = l1 ++ p :: l2
        ∧ (∀ p2 ∈ l1, ¬ ((3:ℚ)/5
            ≤ jaccard (tokenize (pyNormalize g)) (tokenize p2.generic_name)))
        ∧ (3:ℚ)/5 ≤ jaccard (tokenize (pyNormalize g)) (tokenize p.generic_name))
      ∧ resolve_item db env g q pb ps = (pref_result p (pyNormalize g) q, false))
    ∧ (fuzzy_match db (pyNormalize g) = none →
      (∀ p2 ∈ get_all_preferences db, ¬ ((3:ℚ)/5
          ≤ jaccard (tokenize (pyNormalize g)) (tokenize p2.generic_name)))
      ∧ (resolve_item db env g q pb ps).2 = true) := by
  constructor
  · intro p hp
    constructor
    · have hp2 : (get_all_preferences db).find? (fun p2 =>
          decide ((3:ℚ)/5 ≤ jaccard (tokenize (pyNormalize g))
            (tokenize p2.generic_name))) = some p := hp
      obtain ⟨l1, l2, heq, hl1, hpa⟩ := find?_eq_some_split hp2
      refine ⟨l1, l2, heq, ?_, of_decide_eq_true hpa⟩
      intro p2 hmem
      have h2 := hl1 p2 hmem
      exact of_decide_eq_false h2
    · simp only [resolve_item, hexact, hp]
  · intro hnone
    constructor
    · intro p2 hmem hc
      have h2 : ∀ x ∈ get_all_preferences db, ¬ (fun p3 =>
          decide ((3:ℚ)/5 ≤ jaccard (tokenize (pyNormalize g))
            (tokenize p3.generic_name))) x = true := List.find?_eq_none.mp hnone
      exact h2 p2 hmem (decide_eq_true hc)
    · simp only [resolve_item, hexact, hnone]
      cases search_products env with
      | error e => rfl
      | ok products =>
        dsimp only
        split
        · rfl
        · split
          · rfl
          · split <;> rfl

/-- Witness for C3: one stored preference "a b", query "b a" — exact lookup
misses, the token sets coincide (overlap 1 ≥ 0.6), and resolution returns the
stored preference without searching. -/
theorem claim_C3_witness :
    resolve_item ⟨[⟨0, "a b", 7, "AB Thing", none, none, 2, none⟩], 1⟩
        ⟨none, Except.error (), none⟩ "b a" 1 none none
      = (pref_result ⟨0, "a b", 7, "AB Thing", none, none, 2, none⟩
          (pyNormalize "b a") 1, false) := by
  have hj : jaccard (tokenize (pyNormalize "b a")) (tokenize "a b") = 1 := by
    have hset : tokenize (pyNormalize "b a") = tokenize "a b" := by decide
    rw [hset]
    exact jaccard_self _ (by decide)
  have hpred : decide ((3:ℚ)/5 ≤ jaccard (tokenize (pyNormalize "b a"))
      (tokenize "a b")) = true := by
    apply decide_eq_true
    rw [hj]
    norm_num
  have hfuzzy : fuzzy_match ⟨[⟨0, "a b", 7, "AB Thing", none, none, 2, none⟩], 1⟩
      (pyNormalize "b a")
      = some ⟨0, "a b", 7, "AB Thing", none, none, 2, none⟩ := by
    unfold fuzzy_match get_all_preferences
    simp only [List.find?_cons, hpred]
  exact ((claim_C3 ⟨[⟨0, "a b", 7, "AB Thing", none, none, 2, none⟩], 1⟩
    ⟨none, Except.error (), none⟩ "b a" 1 none none (by simp) (by decide)).1
    ⟨0, "a b", 7, "AB Thing", none, none, 2, none⟩ hfuzzy).2


/-- C4: resolution never sees an exception from a failed provider search.
With the fresh cache missing its entry and the network call failing, a truthy
stale cache entry makes the search return the stale results, and resolution
proceeds exactly as if the search had succeeded with them; with no usable
stale entry resolution degrades to Unresolved with an empty candidate list.
A successful search returning zero candidates likewise yields
Unresolved-empty.  (The embedded `resolve_item` is a total function: the
Python `try/except RuntimeError` is the match on the search's `Except`.) -/
theorem claim_C4 (db : DB) (env : SearchEnv) (g : String) (q : Int)
    (pb ps : Option String)
    (hexact : get_preference db (pyNormalize g) = none)
    (hfuzzy : fuzzy_match db (pyNormalize g) = none)
    (hfresh : listTruthy env.fresh_cache = false)
    (hnet : env.network = Except.error ()) :
    (listTruthy env.stale_cache = true →
      search_products env = Except.ok (env.stale_cache.getD [])
      ∧ resolve_item db env g q pb ps
          = resolve_item db ⟨none, Except.ok (env.stale_cache.getD []), none⟩
              g q pb ps)
    ∧ (listTruthy env.stale_cache = false →
      resolve_item db env g q pb ps = (unresolved_empty (pyNormalize g) q, true))
    ∧ resolve_item db ⟨env.fresh_cache, Except.ok [], env.stale_cache⟩ g q pb ps
        = (unresolved_empty (pyNormalize g) q, true) := by
  refine ⟨?_, ?_, ?_⟩
  · intro hstale
    have hsp : search_products env = Except.ok (env.stale_cache.getD []) := by
      unfold search_products
      rw [hfresh, hnet]
      simp only [Bool.false_eq_true, if_false, hstale, if_true]
    refine ⟨hsp, ?_⟩
    have hsp2 : search_products ⟨none, Except.ok (env.stale_cache.getD []), none⟩
        = Except.ok (env.stale_cache.getD []) := rfl
    simp only [resolve_item, hexact, hfuzzy, hsp, hsp2]
  · intro hstale
    have hsp : search_products env = Except.error () := by
      unfold search_products
      rw [hfresh, hnet]
      simp only [Bool.false_eq_true, if_false, hstale]
    simp only [resolve_item, hexact, hfuzzy, hsp]
  · have hsp : search_products ⟨env.fresh_cache, Except.ok [], env.stale_cache⟩
        = Except.ok [] := by
      unfold search_products
      dsimp only
      rw [hfresh]
      simp only [Bool.false_eq_true, if_false]
    simp only [resolve_item, hexact, hfuzzy, hsp, List.isEmpty_nil, if_true]

/-- Witness for C4: a failing network with a stale cache entry holding one
product returns that entry and resolves as if the search had succeeded; with
no cache at all, resolution yields Unresolved with no candidates. -/
theorem claim_C4_witness :
    (search_products ⟨none, Except.error (), some [⟨some 9, "milk", none, none,
        none, true, false⟩]⟩
      = Except.ok [⟨some 9, "milk", none, none, none, true, false⟩]
     ∧ resolve_item ⟨[], 0⟩ ⟨none, Except.error (), some [⟨some 9, "milk", none,
         none, none, true, false⟩]⟩ "milk" 1 none none
       = resolve_item ⟨[], 0⟩ ⟨none, Except.ok [⟨some 9, "milk", none, none,
           none, true, false⟩], none⟩ "milk" 1 none none)
    ∧ resolve_item ⟨[], 0⟩ ⟨none, Except.error (), none⟩ "milk" 1 none none
        = (unresolved_empty (pyNormalize "milk") 1, true) :=
  ⟨(claim_C4 ⟨[], 0⟩ ⟨none, Except.error (), some [⟨some 9, "milk", none, none,
      none, true, false⟩]⟩ "milk" 1 none none rfl rfl rfl rfl).1 rfl,
   (claim_C4 ⟨[], 0⟩ ⟨none, Except.error (), none⟩ "milk" 1 none none
      rfl rfl rfl rfl).2.1 rfl⟩


theorem score_candidates_length (db : DB) (generic : String)
    (pb ps : Option String) (products : List Product) :
    (score_candidates db generic pb ps products).length = products.length := by
  unfold score_candidates
  rw [List.length_mergeSort, List.length_map]

/-- C1: at the score-and-rank stage (no exact or fuzzy preference hit, a
successful search whose scored-and-sorted candidate list is `top :: rest`),
the result is Resolved with source search — the top scored candidate as the
product and the top five scored candidates attached — if and only if the top
score is at least 0.4 and the gap to the second score is at least 0.1 (gap 1.0
with a single candidate); otherwise the result is Unresolved carrying the top
five candidates by score. -/
theorem claim_C1 (db : DB) (env : SearchEnv) (g : String) (q : Int)
    (pb ps : Option String) (products : List Product)
    (hexact : get_preference db (pyNormalize g) = none)
    (hfuzzy : fuzzy_match db (pyNormalize g) = none)
    (hok : search_products env = Except.ok products)
    (top : Product × ℚ) (rest : List (Product × ℚ))
    (hscored : score_candidates db (pyNormalize g) pb ps products = top :: rest) :
    ((resolve_item db env g q pb ps).1
        = search_result top (top :: rest) (pyNormalize g) q
      ↔ ((2:ℚ)/5 ≤ top.2 ∧ (1:ℚ)/10 ≤ gap_of top rest))
    ∧ (¬ ((2:ℚ)/5 ≤ top.2 ∧ (1:ℚ)/10 ≤ gap_of top rest) →
      (resolve_item db env g q pb ps).1
        = disambiguation_result (top :: rest) (pyNormalize g) q) := by
  cases products with
  | nil =>
    rw [show score_candidates db (pyNormalize g) pb ps [] = [] from by
      unfold score_candidates
      rw [List.map_nil, List.mergeSort_nil]] at hscored
    simp at hscored
  | cons p0 prods =>
    simp only [resolve_item, hexact, hfuzzy, hok, List.isEmpty_cons,
      Bool.false_eq_true, if_false, hscored]
    constructor
    · constructor
      · intro heq
        by_cases hc : (2:ℚ)/5 ≤ top.2 ∧ (1:ℚ)/10 ≤ gap_of top rest
        · exact hc
        · rw [if_neg hc] at heq
          exfalso
          simp only [disambiguation_result, search_result] at heq
          exact Bool.false_ne_true (congrArg ResolveResult.resolved heq)
      · intro hc
        rw [if_pos hc]
    · intro hc
      rw [if_neg hc]

/-- Witness for C1: a single candidate whose name equals the query scores
exactly 0.4 with gap 1.0, so it auto-resolves from search. -/
theorem claim_C1_witness :
    (resolve_item ⟨[], 0⟩ ⟨none, Except.ok [⟨some 1, "a", none, none, none,
        true, false⟩], none⟩ "a" 1 none none).1
      = search_result (⟨some 1, "a", none, none, none, true, false⟩,
          calculate_relevance ⟨[], 0⟩ ⟨some 1, "a", none, none, none, true,
            false⟩ (pyNormalize "a") none none)
          [(⟨some 1, "a", none, none, none, true, false⟩,
            calculate_relevance ⟨[], 0⟩ ⟨some 1, "a", none, none, none, true,
              false⟩ (pyNormalize "a") none none)] (pyNormalize "a") 1 := by
  have hs : calculate_relevance ⟨[], 0⟩ ⟨some 1, "a", none, none, none, true,
      false⟩ (pyNormalize "a") none none = 2/5 := by
    have hj : jaccard (tokenize (pyNormalize "a")) (tokenize "a") = 1 := by
      have hset : tokenize (pyNormalize "a") = tokenize "a" := by decide
      rw [hset]
      exact jaccard_self _ (by decide)
    simp only [calculate_relevance, name_term, brand_term, size_term,
      history_term, special_term, strTruthy, get_preference, hj]
    norm_num
  have hscored : score_candidates ⟨[], 0⟩ (pyNormalize "a") none none
      [⟨some 1, "a", none, none, none, true, false⟩]
      = [(⟨some 1, "a", none, none, none, true, false⟩,
          calculate_relevance ⟨[], 0⟩ ⟨some 1, "a", none, none, none, true,
            false⟩ (pyNormalize "a") none none)] := by
    unfold score_candidates
    rw [List.map_singleton, List.mergeSort_singleton]
  exact ((claim_C1 ⟨[], 0⟩ ⟨none, Except.ok [⟨some 1, "a", none, none, none,
      true, false⟩], none⟩ "a" 1 none none
      [⟨some 1, "a", none, none, none, true, false⟩] rfl rfl rfl _ [] hscored).1).mpr
    ⟨by rw [hs], by norm_num [gap_of]⟩

end OakleyGrocery
